import Mathlib

/-!
# Verification of the live-menu reconciliation and publish pipeline

Shallow embedding of `src/update_menu_automator.py` (the operative script)
together with the lab-result error handling of the legacy variant
(`src/unnamed/part_000`, header `update_menu Automator.py`), and proofs of
the specified properties.

Modelling conventions:
* Python strings are Lean `String`s; `str.strip()` / `str.lower()` are
  modelled on the ASCII whitespace / letter range (the pipeline's data is
  ASCII except for analyte names that no claim depends on).
* JSON scalar values that the script merely passes through unchanged
  (package `Quantity`, lab `TestResultLevel`) are modelled by their
  serialized JSON text, rendered verbatim.
* `decimal.Decimal` parsing is modelled by a parser for finite decimal
  numerals (optional sign, digits, optional point, optional exponent);
  `Decimal`'s non-finite spellings ("nan"/"inf") are outside the model as
  they are not finite numbers, and no claim touches them.
* Python's `sorted` is a stable sort; it is modelled by the (stable)
  `List.insertionSort` from Mathlib.
* `hashlib.sha256` is modelled by an unspecified deterministic function of
  the content string; the pipeline relies only on it being a function
  (equal bytes give equal digests).
* `pandas` cell values are modelled as `Option String`: `none` for a
  missing column, `some s` for cell text.  NaN cells produced by pandas for
  blank cells inside an existing column are outside the model.
-/

/-! ## Python string primitives -/

/-- ASCII whitespace, the characters `str.strip()` removes on ASCII data. -/
def pySpace (c : Char) : Bool :=
  c = ' ' || c = '\t' || c = '\n' || c = '\x0d' || c = '\x0b' || c = '\x0c'

/-- Python `str.strip()` (ASCII whitespace). -/
def pyStrip (s : String) : String :=
  String.mk (((s.toList.dropWhile pySpace).reverse.dropWhile pySpace).reverse)

/-- Lower-case one character (ASCII, as the script's data requires). -/
def pyLowerChar (c : Char) : Char :=
  if 'A' ≤ c && c ≤ 'Z' then Char.ofNat (c.toNat + 32) else c

/-- Python `str.lower()` (ASCII). -/
def pyLower (s : String) : String :=
  String.mk (s.toList.map pyLowerChar)

/-- Python `str(x)` on an optional string: `str(None)` is the text `"None"`. -/
def pyStr (o : Option String) : String :=
  match o with
  | none => "None"
  | some s => s

/-- Python truthiness of an optional string: `None` and `""` are falsy. -/
def pyTruthy (o : Option String) : Bool :=
  match o with
  | none => false
  | some s => !(s == "")

/-- Does `pre` occur as a leading segment of `l`? -/
def leadsList : List Char → List Char → Bool
  | [], _ => true
  | _ :: _, [] => false
  | a :: as, b :: bs => a == b && leadsList as bs

/-- Does `needle` occur as a contiguous segment of `hay`?
Models Python's `needle in hay` on strings. -/
def containsSub (hay needle : List Char) : Bool :=
  match hay with
  | [] => needle.isEmpty
  | _ :: t => leadsList needle hay || containsSub t needle

/-- Python `needle in hay` for strings. -/
def strContains (hay needle : String) : Bool :=
  containsSub hay.toList needle.toList

/-! ## Numeric parsing (`int(...)` and `Decimal(...)`) -/

/-- Split a character list into its leading decimal digits and the rest. -/
def takeDigits : List Char → List Char × List Char
  | [] => ([], [])
  | c :: t =>
    if c.isDigit then
      let p := takeDigits t
      (c :: p.1, p.2)
    else ([], c :: t)

/-- Numeric value of a digit list (most significant first). -/
def digitsToNat (ds : List Char) : Nat :=
  ds.foldl (fun n c => n * 10 + (c.toNat - 48)) 0

/-- Parse the digits of an exponent part and apply it. -/
def applyExpDigits (cs : List Char) (neg : Bool) (q : ℚ) : Option ℚ :=
  let p := takeDigits cs
  if p.1.isEmpty || !p.2.isEmpty then none
  else some (if neg then q / 10 ^ digitsToNat p.1 else q * 10 ^ digitsToNat p.1)

/-- Parse an optional exponent suffix (`e`/`E`, optional sign, digits). -/
def parseExp (cs : List Char) (q : ℚ) : Option ℚ :=
  match cs with
  | [] => some q
  | 'e' :: r =>
    (match r with
     | '+' :: r2 => applyExpDigits r2 false q
     | '-' :: r2 => applyExpDigits r2 true q
     | r2 => applyExpDigits r2 false q)
  | 'E' :: r =>
    (match r with
     | '+' :: r2 => applyExpDigits r2 false q
     | '-' :: r2 => applyExpDigits r2 true q
     | r2 => applyExpDigits r2 false q)
  | _ => none

/-- Parse an unsigned decimal numeral `digits[.digits][exponent]`
(at least one digit required, as `Decimal` demands). -/
def parseUnsigned (cs : List Char) : Option ℚ :=
  let ip := takeDigits cs
  match ip.2 with
  | '.' :: r2 =>
    let fp := takeDigits r2
    if ip.1.isEmpty && fp.1.isEmpty then none
    else
      parseExp fp.2
        ((digitsToNat ip.1 : ℚ) + (digitsToNat fp.1 : ℚ) / 10 ^ fp.1.length)
  | r1 =>
    if ip.1.isEmpty then none else parseExp r1 (digitsToNat ip.1)

/-- `decimal.Decimal(s)` followed by `float(...)`, for finite decimal
numerals: surrounding whitespace is permitted, then an optional sign and an
unsigned numeral.  Returns `none` where `Decimal` raises. -/
def parseDecStr (s : String) : Option ℚ :=
  match (pyStrip s).toList with
  | '+' :: t => parseUnsigned t
  | '-' :: t => (parseUnsigned t).map Neg.neg
  | t => parseUnsigned t

/-- Python `int(s)`: surrounding whitespace allowed, optional sign, digits.
Returns `none` where `int` raises `ValueError`. -/
def pyIntStr (s : String) : Option Int :=
  let core : List Char → Option Nat := fun cs =>
    let p := takeDigits cs
    if p.1.isEmpty || !p.2.isEmpty then none else some (digitsToNat p.1)
  match (pyStrip s).toList with
  | '+' :: t => (core t).map Int.ofNat
  | '-' :: t => (core t).map (fun n => -(n : Int))
  | t => (core t).map Int.ofNat

/-- `_to_money(v)` (src/update_menu_automator.py:62-69): `None` maps to
`None`; otherwise strip, remove every `$` and `,`, and parse as a decimal,
with parse failure giving `None`.  Removing all occurrences of a one-character
pattern via `str.replace(c, "")` is a character filter. -/
def toMoney (v : Option String) : Option ℚ :=
  match v with
  | none => none
  | some s =>
    parseDecStr (String.mk ((pyStrip s).toList.filter (fun c => !(c == '$') && !(c == ','))))

/-! ## Association maps with Python `dict` assignment semantics -/

/-- `m[k] = v` on a Python dict modelled as an association list: the first
occurrence of `k` is updated in place, otherwise `(k, v)` is appended. -/
def upsert {K V : Type} [DecidableEq K] : List (K × V) → K → V → List (K × V)
  | [], k, v => [(k, v)]
  | (k', v') :: t, k, v =>
    if k' = k then (k, v) :: t else (k', v') :: upsert t k v

/-- First-match lookup in an association list (sound on nodup keys). -/
def lookupA {K V : Type} [DecidableEq K] : List (K × V) → K → Option V
  | [], _ => none
  | (k', v) :: t, k => if k' = k then some v else lookupA t k

/-- The keys of an association list, in order. -/
def keysOf {K V : Type} (m : List (K × V)) : List K :=
  m.map Prod.fst

/-! ## MetadataStore loader (`build_excel_map`) -/

/-- One parsed row of the first worksheet (`dtype=str`): cell text per
column, `none` when the column is absent. -/
structure ProdRow where
  product : Option String
  price : Option String
  typ : Option String
  bulkPricing : Option String
deriving DecidableEq

/-- One entry of `product_map`.  The embedded `BulkPricing` JSON payload is
opaque to every claim; it is carried as the raw cell text that parsed. -/
structure ProdEntry where
  price : Option ℚ
  typ : Option String
  bulkPricing : Option String
deriving DecidableEq

/-- Row filter `df["Product"].notna() & (df["Product"].str.strip() != "")`. -/
def retainedRow (r : ProdRow) : Bool :=
  match r.product with
  | none => false
  | some s => !(pyStrip s == "")

/-- `name = str(row["Product"]).strip()`. -/
def rowName (r : ProdRow) : String :=
  pyStrip (r.product.getD "")

/-- The `product_map` value built for one retained row
(src/update_menu_automator.py:95-99): price via `_to_money(row.get("Price",
""))`, type stripped or `None`, bulk payload as it stood.  Whether the
`BulkPricing` text parses as JSON does not affect any claim; the model keeps
the raw text (with `none` for an untruthy or missing cell, as the code's
`if bulk_raw and not pd.isna(bulk_raw)` guard yields `bulk = None`). -/
def mkProdEntry (r : ProdRow) : ProdEntry :=
  { price := toMoney (some (r.price.getD ""))
    typ := r.typ.map pyStrip
    bulkPricing := if pyTruthy r.bulkPricing then r.bulkPricing else none }

/-- Fold one product row into `product_map`. -/
def stepRow (m : List (String × ProdEntry)) (r : ProdRow) : List (String × ProdEntry) :=
  if retainedRow r then upsert m (rowName r) (mkProdEntry r) else m

/-- `product_map` from the retained rows of the first worksheet. -/
def buildProductMap (rows : List ProdRow) : List (String × ProdEntry) :=
  rows.foldl stepRow []

/-- One parsed row of the optional `BulkRules` worksheet. -/
structure BRRow where
  productGroup : Option String
  minQty : Option String
  price : Option String
deriving DecidableEq

/-- One emitted bulk rule. -/
structure BulkRule where
  productGroup : String
  minQty : Int
  price : Option ℚ
deriving DecidableEq

/-- Process one `BulkRules` row (src/update_menu_automator.py:108-118):
rows with an untruthy field are skipped; on a truthy row `int(mq)` raises
(aborting the run, modelled as `Except.error`) when `MinQty` is not an
integer numeral, and otherwise the rule is appended with
`Price = _to_money(pr)` (possibly `None`). -/
def bulkStep (acc : List BulkRule) (r : BRRow) : Except Unit (List BulkRule) :=
  if pyTruthy r.productGroup && pyTruthy r.minQty && pyTruthy r.price then
    match pyIntStr (r.minQty.getD "") with
    | none => .error ()
    | some n =>
      .ok (acc ++ [{ productGroup := pyStrip (r.productGroup.getD "")
                     minQty := n
                     price := toMoney r.price }])
  else .ok acc

/-- The `bulk_rules` list, or `Except.error` when the script dies on an
uncaught `ValueError` from `int(...)`. -/
def bulkRulesOf (rows : List BRRow) : Except Unit (List BulkRule) :=
  rows.foldlM bulkStep []

/-- Parsed spreadsheet content: the first worksheet's rows, and the
`BulkRules` worksheet's rows when that sheet exists. -/
structure ExcelData where
  productRows : List ProdRow
  bulkSheet : Option (List BRRow)

/-- `build_excel_map` (src/update_menu_automator.py:72-120): the product
map plus the bulk rules (empty when the sheet is absent); propagates the
fatal `int(...)` error. -/
def buildExcelMap (d : ExcelData) : Except Unit (List (String × ProdEntry) × List BulkRule) :=
  match d.bulkSheet with
  | none => .ok (buildProductMap d.productRows, [])
  | some rows => (bulkRulesOf rows).map (fun br => (buildProductMap d.productRows, br))

/-! ## Inventory fetcher (STEP 1) -/

/-- The `ROOMS` allow-set of storage locations (lower-cased). -/
def ROOMS : List String := ["vault - finished goods", "low inventory"]

/-- The nested `Item` object of a package, when present as a JSON object. -/
structure ItemObj where
  Name : Option String
deriving DecidableEq

/-- One package record from the inventory API, restricted to the fields the
script reads.  `Quantity` is passed through unchanged by the code and is
modelled by its serialized JSON text. -/
structure Package where
  Id : Nat
  Label : Option String
  Item : Option ItemObj
  ItemName : Option String
  Quantity : Option String
  LocationName : Option String
deriving DecidableEq

/-- `pkg.get("LocationName", "").lower() in ROOMS`. -/
def allowedPkg (p : Package) : Bool :=
  ROOMS.contains (pyLower (p.LocationName.getD ""))

/-- The nested item name, when `pkg.get("Item")` is an object. -/
def nestedName (p : Package) : Option String :=
  p.Item.bind ItemObj.Name

/-- Item-name resolution (src/update_menu_automator.py:157-161): take the
nested `Item.Name` when truthy, else fall back to the flat `ItemName`. -/
def resolveItemName (p : Package) : Option String :=
  if pyTruthy (nestedName p) then nestedName p else p.ItemName

/-- `str(item_name).strip()`: the key used both for the published record
and for the metadata lookup. -/
def itemNameKey (p : Package) : String :=
  pyStrip (pyStr (resolveItemName p))

/-- The value stored in `packages_map` for one retained package. -/
structure PkgRecord where
  Id : Nat
  Label : Option String
  ItemName : String
  Quantity : Option String
  typ : Option String
  price : Option ℚ
deriving DecidableEq

/-- Build the `packages_map` value for one package
(src/update_menu_automator.py:163-170): the metadata lookup
`excel_map.get(key, {}).get(field)` yields `None` on a miss. -/
def mkRecord (excel : List (String × ProdEntry)) (p : Package) : PkgRecord :=
  { Id := p.Id
    Label := p.Label
    ItemName := itemNameKey p
    Quantity := p.Quantity
    typ := (lookupA excel (itemNameKey p)).bind ProdEntry.typ
    price := (lookupA excel (itemNameKey p)).bind ProdEntry.price }

/-- Fold one package of one page into `packages_map`: packages outside the
allow-set are skipped; retained ids are assigned with dict semantics. -/
def stepPkg (excel : List (String × ProdEntry)) (m : List (Nat × PkgRecord)) (p : Package) :
    List (Nat × PkgRecord) :=
  if allowedPkg p then upsert m p.Id (mkRecord excel p) else m

/-- Process the `Data` list of one page into `packages_map`. -/
def processPage (excel : List (String × ProdEntry)) (m : List (Nat × PkgRecord))
    (pkgs : List Package) : List (Nat × PkgRecord) :=
  pkgs.foldl (stepPkg excel) m

/-- The `packages_map` produced by a sequence of packages (the
concatenation of the pages' `Data` lists, in request order). -/
def buildPackagesMap (excel : List (String × ProdEntry)) (pkgs : List Package) :
    List (Nat × PkgRecord) :=
  processPage excel [] pkgs

/-- One inventory API response: HTTP status, the `Data` list, and the
`TotalPages` field (absent is read as 1 via `data.get("TotalPages", 1)`). -/
structure InvResponse where
  status : Nat
  Data : List Package
  TotalPages : Option Nat

/-- Result of the pagination loop: `fatal` when `raise_for_status()` fires,
else the list of requested page numbers and the accumulated map. -/
inductive FetchResult
  | fatal
  | done (pages : List Nat) (m : List (Nat × PkgRecord))
deriving DecidableEq

/-- The pagination loop (src/update_menu_automator.py:138-174), with fuel
to make the `while True` a total function; `none` means the fuel ran out
before the loop broke.  Each iteration requests page `page`, aborts on a
4xx/5xx status, folds the page's packages into the map, and stops when
`page >= data.get("TotalPages", 1)`. -/
def fetchLoop (api : Nat → InvResponse) (excel : List (String × ProdEntry)) :
    Nat → Nat → List (Nat × PkgRecord) → Option FetchResult
  | 0, _, _ => none
  | fuel + 1, page, m =>
    let r := api page
    if 400 ≤ r.status then some .fatal
    else
      let m' := processPage excel m r.Data
      if r.TotalPages.getD 1 ≤ page then some (.done [page] m')
      else
        match fetchLoop api excel fuel (page + 1) m' with
        | none => none
        | some .fatal => some .fatal
        | some (.done ps mf) => some (.done (page :: ps) mf)

/-! ## Lab-result enricher (STEP 2) -/

/-- The analyte vocabulary of the operative script
(src/update_menu_automator.py:179). -/
def ANALYTES : List String :=
  ["thc", "thca", "cbd", "cbda", "cbg", "cbc", "cbn", "limonene", "myrcene",
   "pinene", "linalool", "caryophyllene"]

/-- One lab test record from the lab API, restricted to the fields the
script reads.  `TestResultLevel` is passed through unchanged and is
modelled by its serialized JSON text. -/
structure LabRec where
  TestTypeName : Option String
  TestResultLevel : Option String
deriving DecidableEq

/-- One retained lab entry (the two retained fields). -/
structure LabEntry where
  TestTypeName : Option String
  TestResultLevel : Option String
deriving DecidableEq

/-- Does a lowered test-type name mention one of the analytes? -/
def analyteMatch (name : String) : Bool :=
  ANALYTES.any (fun a => strContains name a)

/-- Per-unit lab handling of the operative script
(src/update_menu_automator.py:191-198): only a 200 response contributes
records (filtered to the analyte vocabulary); every other status leaves the
unit's list empty, and nothing aborts. -/
def labEntriesOf (status : Nat) (data : List LabRec) : List LabEntry :=
  if status = 200 then
    data.filterMap (fun rec =>
      if analyteMatch (pyLower (rec.TestTypeName.getD "")) then
        some { TestTypeName := rec.TestTypeName, TestResultLevel := rec.TestResultLevel }
      else none)
  else []

/-- The legacy variant's analyte vocabulary (src/unnamed/part_000:40-49),
after the source's startup lower-casing. -/
def ANALYTES_LEGACY : List String :=
  ["cbd", "cbda", "cbn", "thc", "thca", "cbdv", "cbg", "cbga", "δ8-thc", "thcv", "cbc",
   "alpha-pinene", "camphene", "sabinene", "beta-pinene", "beta-myrcene", "3-carene",
   "alpha-terpinene", "p-cymene", "d-limonene", "eucalyptol", "o-cymene", "gamma-terpinene",
   "sabinene hydrate", "terpinolene", "enochone", "linalool", "fenchol", "isopulegol",
   "camphor", "isoborneol", "borneol", "menthol", "terpineol", "nerol", "pulegone",
   "geraniol", "geraniol acetate", "alpha-cedrene", "beta-caryophyllene", "alpha-humulene",
   "valencene", "cis-nerolidol", "trans-nerolidol", "caryophyllene oxide", "guaio1",
   "cedrol", "alpha-bisabolol"]

/-- Per-unit lab handling of the legacy variant (src/unnamed/part_000:181-193):
200 contributes filtered records, 404 is an empty result, and any other
status raises (`lr.raise_for_status()`), a fatal error for the run. -/
def labEntriesLegacy (status : Nat) (data : List LabRec) : Except Unit (List LabEntry) :=
  if status = 200 then
    .ok (data.filterMap (fun rec =>
      if ANALYTES_LEGACY.any
          (fun a => strContains (pyLower (rec.TestTypeName.getD "")) a) then
        some { TestTypeName := rec.TestTypeName, TestResultLevel := rec.TestResultLevel }
      else none))
  else if status = 404 then .ok []
  else .error ()

/-- The sort key `x["TestTypeName"] or ""`
(src/update_menu_automator.py:202). -/
def labKey (e : LabEntry) : String :=
  match e.TestTypeName with
  | none => ""
  | some s => s

/-- The ordering used on lab entries. -/
def labLe (a b : LabEntry) : Prop := labKey a ≤ labKey b

instance : DecidableRel labLe := fun a b =>
  inferInstanceAs (Decidable (labKey a ≤ labKey b))

instance : IsTotal LabEntry labLe := ⟨fun a b => le_total (labKey a) (labKey b)⟩

instance : IsTrans LabEntry labLe := ⟨fun _ _ _ h1 h2 => le_trans h1 h2⟩

/-- One unit's `lab_by_pkg` list after the stable re-sort
(src/update_menu_automator.py:200-202). -/
def labSorted (status : Nat) (data : List LabRec) : List LabEntry :=
  List.insertionSort labLe (labEntriesOf status data)

/-! ## Final payload assembly (BUILD FINAL JSON) -/

/-- One record of the published `items` list. -/
structure FinalRecord where
  Id : Nat
  Label : Option String
  ItemName : String
  Quantity : Option String
  typ : Option String
  price : Option ℚ
  LabResults : List LabEntry
deriving DecidableEq

/-- The ordering `key=lambda x: x["Id"]` on map values. -/
def idLe (a b : PkgRecord) : Prop := a.Id ≤ b.Id

instance : DecidableRel idLe := fun a b =>
  inferInstanceAs (Decidable (a.Id ≤ b.Id))

instance : IsTotal PkgRecord idLe := ⟨fun a b => Nat.le_total a.Id b.Id⟩

instance : IsTrans PkgRecord idLe := ⟨fun _ _ _ h1 h2 => Nat.le_trans h1 h2⟩

/-- Attach a unit's lab list (`lab_by_pkg.get(pkg["Id"], [])`). -/
def mkFinal (labs : Nat → List LabEntry) (r : PkgRecord) : FinalRecord :=
  { Id := r.Id
    Label := r.Label
    ItemName := r.ItemName
    Quantity := r.Quantity
    typ := r.typ
    price := r.price
    LabResults := labs r.Id }

/-- The `final` list (src/update_menu_automator.py:207-218): the map's
values sorted by unit id, each joined with its lab list. -/
def finalItems (labs : Nat → List LabEntry) (m : List (Nat × PkgRecord)) :
    List FinalRecord :=
  (List.insertionSort idLe (m.map Prod.snd)).map (mkFinal labs)

/-! ## Serialization (`json.dumps(..., ensure_ascii=False, separators=(",", ":"))`) -/

/-- An opening brace as text. -/
def lbr : String := "\x7b"

/-- A closing brace as text. -/
def rbr : String := "\x7d"

/-- Lower-case hex digit pair of a byte. -/
def hex2 (n : Nat) : String :=
  String.mk [Nat.digitChar (n / 16 % 16), Nat.digitChar (n % 16)]

/-- JSON escaping of one character, as `json.dumps` with
`ensure_ascii=False` performs it. -/
def escChar (c : Char) : String :=
  if c = '"' then "\\\""
  else if c = '\\' then "\\\\"
  else if c = '\n' then "\\n"
  else if c = '\t' then "\\t"
  else if c = '\x0d' then "\\r"
  else if c = '\x08' then "\\b"
  else if c = '\x0c' then "\\f"
  else if c.toNat < 32 then "\\u00" ++ hex2 c.toNat
  else String.singleton c

/-- A JSON string literal. -/
def jstr (s : String) : String :=
  "\"" ++ String.join (s.toList.map escChar) ++ "\""

/-- Render an optional value, `None` as `null`. -/
def jopt {α : Type} (f : α → String) : Option α → String
  | none => "null"
  | some a => f a

/-- Fractional decimal digits of `r / d` (most significant first), with
fuel bounding the expansion. -/
def fracDigits : Nat → Nat → Nat → List Char
  | 0, _, _ => []
  | fuel + 1, r, d =>
    Nat.digitChar (r * 10 / d) ::
      (if r * 10 % d = 0 then [] else fracDigits fuel (r * 10 % d) d)

/-- `repr` of the Python float a parsed decimal becomes, for decimal
fractions that round-trip (e.g. `45 ↦ "45.0"`, `45.25 ↦ "45.25"`); the
expansion is fuel-bounded, keeping the rendering a total deterministic
function. -/
def renderRat (q : ℚ) : String :=
  let sign := if q < 0 then "-" else ""
  let n := q.num.natAbs
  let ip := n / q.den
  let r := n % q.den
  sign ++ toString ip ++ "." ++
    (if r = 0 then "0" else String.mk (fracDigits 30 r q.den))

/-- Comma-joined fragments. -/
def joinComma : List String → String
  | [] => ""
  | [s] => s
  | s :: t => s ++ "," ++ joinComma t

/-- A JSON array of rendered elements. -/
def jarr {α : Type} (f : α → String) (l : List α) : String :=
  "[" ++ joinComma (l.map f) ++ "]"

/-- One serialized lab entry, keys in insertion order. -/
def labJson (e : LabEntry) : String :=
  lbr ++ "\"TestTypeName\":" ++ jopt jstr e.TestTypeName ++
    ",\"TestResultLevel\":" ++ jopt (fun v => v) e.TestResultLevel ++ rbr

/-- One serialized catalog record, keys in insertion order
(src/update_menu_automator.py:210-218). -/
def itemJson (r : FinalRecord) : String :=
  lbr ++ "\"Id\":" ++ toString r.Id ++
    ",\"Label\":" ++ jopt jstr r.Label ++
    ",\"ItemName\":" ++ jstr r.ItemName ++
    ",\"Quantity\":" ++ jopt (fun v => v) r.Quantity ++
    ",\"Type\":" ++ jopt jstr r.typ ++
    ",\"Price\":" ++ jopt renderRat r.price ++
    ",\"LabResults\":" ++ jarr labJson r.LabResults ++ rbr

/-- One serialized bulk rule, keys in insertion order. -/
def ruleJson (b : BulkRule) : String :=
  lbr ++ "\"ProductGroup\":" ++ jstr b.productGroup ++
    ",\"MinQty\":" ++ toString b.minQty ++
    ",\"Price\":" ++ jopt renderRat b.price ++ rbr

/-- The serialized `payload` (src/update_menu_automator.py:220-225):
compact separators, keys in insertion order. -/
def payloadJson (items : List FinalRecord) (rules : List BulkRule) : String :=
  lbr ++ "\"items\":" ++ jarr itemJson items ++
    ",\"bulkRules\":" ++ jarr ruleJson rules ++ rbr

/-! ## Whole pipeline and publisher -/

/-- One lab API response for one unit id. -/
structure LabResponse where
  status : Nat
  Data : List LabRec

/-- The upstream inputs of one run: parsed spreadsheet content, the
inventory API (by page number) and the lab API (by unit id). -/
structure Upstream where
  excel : ExcelData
  invApi : Nat → InvResponse
  labApi : Nat → LabResponse

/-- The serialized `new_json` a run computes from its upstream data, or
`none` when the run aborts (spreadsheet bulk-rule error, inventory fetch
error) or the pagination fuel runs out. -/
def pipelineJson (fuel : Nat) (u : Upstream) : Option String :=
  match buildExcelMap u.excel with
  | .error _ => none
  | .ok (pm, rules) =>
    match fetchLoop u.invApi pm fuel 1 [] with
    | none => none
    | some .fatal => none
    | some (.done _ m) =>
      let labs := fun pid => labSorted (u.labApi pid).status (u.labApi pid).Data
      some (payloadJson (finalItems labs m) rules)

/-- The content hash, modelled as a deterministic function of the string;
the pipeline only relies on equal contents hashing equally. -/
def hashStr (s : String) : Nat :=
  s.toList.foldl (fun h c => (h * 131 + c.toNat) % (2 ^ 256)) 0

/-- `file_hash` (src/update_menu_automator.py:52-59) on the artifact's
contents: `None` when the file does not exist. -/
def fileHashO : Option String → Option Nat :=
  Option.map hashStr

/-- Outcome of the change-detection gate. -/
inductive RunEnd
  | noChange
  | publish
deriving DecidableEq

/-- Change detection (src/update_menu_automator.py:230-235): equal hashes
end the run, different hashes (including a missing prior artifact) proceed
to the publish steps. -/
def changeDecision (oldFile : Option String) (newJson : String) : RunEnd :=
  if fileHashO oldFile = some (hashStr newJson) then .noChange else .publish

/-- The external operations of the publish phase. -/
inductive GitOp
  | pull
  | write
  | commit
  | push
deriving DecidableEq

/-- The write/commit/push operations a run issues
(src/update_menu_automator.py:242-253): none on the no-change path. -/
def gitOpsOf : RunEnd → List GitOp
  | .noChange => []
  | .publish => [.pull, .write, .commit, .push]

/-- Exit code of the run's tail: `sys.exit(0)` on no change; on the publish
path 0 when the git steps succeed and 1 on a pull failure. -/
def exitCodeOf (e : RunEnd) (gitOk : Bool) : Nat :=
  match e with
  | .noChange => 0
  | .publish => if gitOk then 0 else 1

/-! ## Concrete fixtures used by witnesses and counterexamples -/

/-- A retained package whose item name misses the metadata map. -/
def pkgW7 : Package :=
  { Id := 101, Label := some "PKG-1", Item := none, ItemName := some "Widget",
    Quantity := some "1", LocationName := some "Vault - Finished Goods" }

/-- A retained package whose flat `ItemName` is the empty string: present
but untruthy. -/
def pkg10cx : Package :=
  { Id := 7, Label := none, Item := none, ItemName := some "",
    Quantity := none, LocationName := some "Vault - Finished Goods" }

/-- A retained package with no item name anywhere. -/
def pkg10w : Package :=
  { Id := 8, Label := none, Item := none, ItemName := none,
    Quantity := none, LocationName := some "Low Inventory" }

/-- A bulk-rule row whose price text does not parse as a decimal. -/
def rowPriceBad : BRRow := { productGroup := some "A", minQty := some "2", price := some "xyz" }

/-- A bulk-rule row whose quantity text does not parse as an integer. -/
def rowQtyBad : BRRow := { productGroup := some "A", minQty := some "abc", price := some "5" }

/-- A bulk-rule row with a missing product group. -/
def rowSkip : BRRow := { productGroup := none, minQty := some "2", price := some "5" }

/-- A fully parsable bulk-rule row. -/
def rowGood : BRRow := { productGroup := some " G ", minQty := some "3", price := some "$10" }

/-- A retained product row whose price text does not parse. -/
def prodRowW : ProdRow :=
  { product := some " Blue Dream 3.5g ", price := some "oops", typ := some "Flower",
    bulkPricing := none }

/-- A lab record with a recognized analyte name. -/
def labRecTHC : LabRec := { TestTypeName := some "THC", TestResultLevel := some "21.4" }

/-- A trivial upstream: empty spreadsheet, one empty inventory page, no
lab results. -/
def u0 : Upstream :=
  { excel := { productRows := [], bulkSheet := none }
    invApi := fun _ => { status := 200, Data := [], TotalPages := none }
    labApi := fun _ => { status := 404, Data := [] } }

/-- The artifact the trivial upstream serializes to. -/
def menuJson0 : String := "\x7b\"items\":[],\"bulkRules\":[]\x7d"

/-- An inventory API that reports three total pages, every page empty. -/
def api3 : Nat → InvResponse := fun _ => { status := 200, Data := [], TotalPages := some 3 }

/-- An inventory API whose response omits the total-page count. -/
def apiN1 : Nat → InvResponse := fun _ => { status := 200, Data := [], TotalPages := none }

/-! ## Lemmas about dict assignment and the accumulating folds -/

theorem lookupA_upsert_self {K V : Type} [DecidableEq K] :
    ∀ (m : List (K × V)) (k : K) (v : V), lookupA (upsert m k v) k = some v := by
  intro m k v
  induction m with
  | nil => simp [upsert, lookupA]
  | cons hd t ih =>
    obtain ⟨k', v'⟩ := hd
    by_cases hk : k' = k
    · subst hk; simp [upsert, lookupA]
    · simp [upsert, lookupA, hk, ih]

theorem lookupA_upsert_ne {K V : Type} [DecidableEq K] :
    ∀ (m : List (K × V)) (k : K) (v : V) (j : K), k ≠ j →
      lookupA (upsert m k v) j = lookupA m j := by
  intro m k v j hne
  have hne' : ¬ (k = j) := hne
  induction m with
  | nil => simp [upsert, lookupA, hne']
  | cons hd t ih =>
    obtain ⟨k', v'⟩ := hd
    by_cases hk : k' = k
    · subst hk
      simp [upsert, lookupA, hne']
    · simp [upsert, lookupA, hk, ih]

theorem mem_keysOf_upsert_iff {K V : Type} [DecidableEq K] :
    ∀ (m : List (K × V)) (k : K) (v : V) (j : K),
      j ∈ keysOf (upsert m k v) ↔ j ∈ keysOf m ∨ j = k := by
  intro m k v j
  induction m with
  | nil => simp [upsert, keysOf]
  | cons hd t ih =>
    obtain ⟨k', v'⟩ := hd
    by_cases hk : k' = k
    · subst hk
      rw [show upsert ((k', v') :: t) k' v = (k', v) :: t from by simp [upsert]]
      simp only [keysOf, List.map_cons, List.mem_cons]
      tauto
    · simp only [upsert, if_neg hk, keysOf, List.map_cons, List.mem_cons]
      simp only [keysOf] at ih
      rw [ih]
      tauto

theorem nodup_keysOf_upsert {K V : Type} [DecidableEq K] :
    ∀ (m : List (K × V)) (k : K) (v : V), (keysOf m).Nodup →
      (keysOf (upsert m k v)).Nodup := by
  intro m k v h
  induction m with
  | nil => simp [upsert, keysOf]
  | cons hd t ih =>
    obtain ⟨k', v'⟩ := hd
    simp only [keysOf, List.map_cons, List.nodup_cons] at h
    by_cases hk : k' = k
    · subst hk
      simpa [upsert, keysOf, List.nodup_cons] using h
    · simp only [upsert, if_neg hk, keysOf, List.map_cons, List.nodup_cons]
      refine ⟨?_, ih h.2⟩
      intro hmem
      rcases (mem_keysOf_upsert_iff t k v k').mp hmem with h' | h'
      · exact h.1 h'
      · exact hk h'

/-- A fold of guarded dict assignments looks up to the last matching kept
element, the shape shared by the packages fold and the product-rows fold. -/
theorem lookupA_foldl_upsert {A K V : Type} [DecidableEq K]
    (keep : A → Bool) (key : A → K) (val : A → V) :
    ∀ (l : List A) (m : List (K × V)) (k : K),
      lookupA (l.foldl (fun acc a => if keep a then upsert acc (key a) (val a) else acc) m) k =
        match (l.filter keep).reverse.find? (fun a => decide (key a = k)) with
        | some a => some (val a)
        | none => lookupA m k := by
  intro l
  induction l with
  | nil => intro m k; rfl
  | cons a t ih =>
    intro m k
    rw [List.foldl_cons, ih]
    by_cases ha : keep a
    · rw [List.filter_cons_of_pos ha, List.reverse_cons, List.find?_append]
      cases hf : (t.filter keep).reverse.find? (fun x => decide (key x = k)) with
      | some p => simp [hf, Option.or]
      | none =>
        simp only [hf, Option.or]
        by_cases hk : key a = k
        · subst hk
          simp [List.find?, ha, lookupA_upsert_self]
        · simp [List.find?, hk, ha, lookupA_upsert_ne _ _ _ _ hk]
    · rw [List.filter_cons_of_neg ha]
      cases hf : (t.filter keep).reverse.find? (fun x => decide (key x = k)) with
      | some p => simp [hf]
      | none => simp [hf, ha]

/-- Keys of such a fold stay nodup. -/
theorem nodup_keysOf_foldl_upsert {A K V : Type} [DecidableEq K]
    (keep : A → Bool) (key : A → K) (val : A → V) :
    ∀ (l : List A) (m : List (K × V)), (keysOf m).Nodup →
      (keysOf (l.foldl (fun acc a => if keep a then upsert acc (key a) (val a) else acc) m)).Nodup := by
  intro l
  induction l with
  | nil => intro m h; exact h
  | cons a t ih =>
    intro m h
    rw [List.foldl_cons]
    refine ih _ ?_
    by_cases ha : keep a
    · simpa [ha] using nodup_keysOf_upsert m (key a) (val a) h
    · simpa [ha]

/-- Keys already present survive such a fold. -/
theorem mem_keysOf_foldl_upsert_of_mem {A K V : Type} [DecidableEq K]
    (keep : A → Bool) (key : A → K) (val : A → V) :
    ∀ (l : List A) (m : List (K × V)) (k : K), k ∈ keysOf m →
      k ∈ keysOf (l.foldl (fun acc a => if keep a then upsert acc (key a) (val a) else acc) m) := by
  intro l
  induction l with
  | nil => intro m k h; exact h
  | cons a t ih =>
    intro m k h
    rw [List.foldl_cons]
    refine ih _ _ ?_
    by_cases ha : keep a
    · rw [if_pos ha]
      exact (mem_keysOf_upsert_iff m (key a) (val a) k).mpr (Or.inl h)
    · simpa [ha]

/-- The key of every kept element of the list is a key of the fold. -/
theorem key_mem_keysOf_foldl_upsert {A K V : Type} [DecidableEq K]
    (keep : A → Bool) (key : A → K) (val : A → V) :
    ∀ (l : List A) (m : List (K × V)) (a : A), a ∈ l → keep a = true →
      key a ∈ keysOf (l.foldl (fun acc a => if keep a then upsert acc (key a) (val a) else acc) m) := by
  intro l
  induction l with
  | nil => intro m a h; exact absurd h (List.not_mem_nil a)
  | cons b t ih =>
    intro m a hmem hkeep
    rw [List.foldl_cons]
    rcases List.mem_cons.mp hmem with h | h
    · subst h
      refine mem_keysOf_foldl_upsert_of_mem keep key val t _ _ ?_
      rw [if_pos hkeep]
      exact (mem_keysOf_upsert_iff m (key a) (val a) (key a)).mpr (Or.inr rfl)
    · exact ih _ _ h hkeep

/-! ## Pagination lemmas -/

/-- On an API with a constant total-page count `N` and successful
responses, the loop started at page `p = N - d` stops after requesting
pages `p, p+1, …, N`, folding every page's data in order. -/
theorem fetchLoop_const_aux (api : Nat → InvResponse) (excel : List (String × ProdEntry))
    (N : Nat) (hTP : ∀ p, (api p).TotalPages = some N) (hst : ∀ p, (api p).status < 400) :
    ∀ (d p : Nat) (m : List (Nat × PkgRecord)) (fuel : Nat), p + d = N → d < fuel →
      fetchLoop api excel fuel p m =
        some (.done (List.range' p (d + 1))
          (processPage excel m (((List.range' p (d + 1)).map (fun q => (api q).Data)).flatten))) := by
  intro d
  induction d with
  | zero =>
    intro p m fuel hpN hfuel
    obtain ⟨fuel', rfl⟩ : ∃ f, fuel = f + 1 := ⟨fuel - 1, by omega⟩
    simp only [fetchLoop]
    rw [if_neg (by have := hst p; omega)]
    rw [show (api p).TotalPages.getD 1 = N from by rw [hTP p]; rfl]
    rw [if_pos (by omega)]
    simp [List.range'_one]
  | succ d ih =>
    intro p m fuel hpN hfuel
    obtain ⟨fuel', rfl⟩ : ∃ f, fuel = f + 1 := ⟨fuel - 1, by omega⟩
    simp only [fetchLoop]
    rw [if_neg (by have := hst p; omega)]
    rw [show (api p).TotalPages.getD 1 = N from by rw [hTP p]; rfl]
    rw [if_neg (by omega)]
    rw [ih (p + 1) (processPage excel m (api p).Data) fuel' (by omega) (by omega)]
    have hr : List.range' p (d + 1 + 1) = p :: List.range' (p + 1) (d + 1) :=
      List.range'_succ p (d + 1) 1
    rw [hr]
    simp only [List.map_cons, List.flatten_cons]
    rw [show ∀ (a b : List Package) (m' : List (Nat × PkgRecord)),
          processPage excel m' (a ++ b) = processPage excel (processPage excel m' a) b from
        fun a b m' => List.foldl_append _ _ a b]

/-! ## Claim theorems -/

/-- Claim C5: within every catalog record, the LabResults list is sorted
ascending by the test-type name (key: the entry's TestTypeName, with null
read as the empty string), for every response status and every order in
which the lab API returned the records; the sort only reorders the
filtered entries. -/
theorem c5_lab_results_sorted (status : Nat) (data : List LabRec) :
    List.Sorted labLe (labSorted status data) ∧
    (labSorted status data).Perm (labEntriesOf status data) :=
  ⟨List.sorted_insertionSort labLe (labEntriesOf status data),
   List.perm_insertionSort labLe (labEntriesOf status data)⟩

/-- Claim C6: the items list of the final payload is sorted by unit id in
ascending order, for every packages map and every lab assignment. -/
theorem c6_items_sorted_by_id (labs : Nat → List LabEntry) (m : List (Nat × PkgRecord)) :
    List.Sorted (fun a b : FinalRecord => a.Id ≤ b.Id) (finalItems labs m) :=
  List.Pairwise.map (mkFinal labs) (fun _ _ hab => hab)
    (List.sorted_insertionSort idLe (m.map Prod.snd))

/-- Claim C7: when the trimmed item name of a retained unit is not a key of
the metadata map, the built record has null price and type — the lookup
miss is total, never an error. -/
theorem c7_metadata_miss_yields_nulls (excel : List (String × ProdEntry)) (p : Package)
    (h : lookupA excel (itemNameKey p) = none) :
    (mkRecord excel p).price = none ∧ (mkRecord excel p).typ = none := by
  simp [mkRecord, h]

/-- Witness for C7 at a concrete package and the empty metadata map. -/
theorem c7_witness :
    lookupA ([] : List (String × ProdEntry)) (itemNameKey pkgW7) = none ∧
    (mkRecord [] pkgW7).price = none ∧ (mkRecord [] pkgW7).typ = none :=
  ⟨rfl, c7_metadata_miss_yields_nulls [] pkgW7 rfl⟩

/-- Claim C3 (evaluation at the divergence): in the operative script a 500
lab response yields an empty LabResults list and the run continues (the
same handling as 404), while the legacy variant raises — a fatal error —
for every non-success status other than 404; a 200 response contributes
the filtered records. -/
theorem c3_lab_status_eval :
    labEntriesOf 500 [labRecTHC] = [] ∧
    labEntriesLegacy 500 [labRecTHC] = .error () ∧
    labEntriesOf 404 [labRecTHC] = [] ∧
    labEntriesLegacy 404 [labRecTHC] = .ok [] ∧
    labEntriesOf 200 [labRecTHC] =
      [{ TestTypeName := some "THC", TestResultLevel := some "21.4" }] :=
  ⟨rfl, rfl, rfl, rfl, rfl⟩

/-- Counterexample to C10 as stated: a package whose flat ItemName is the
empty string (present but untruthy) has neither a nested item name nor a
truthy flat ItemName, yet its published ItemName is "" — not the string
"None". -/
theorem c10_counterexample :
    pkg10cx.Item = none ∧ pyTruthy pkg10cx.ItemName = false ∧
    (mkRecord [] pkg10cx).ItemName = "" ∧ (mkRecord [] pkg10cx).ItemName ≠ "None" := by
  refine ⟨rfl, rfl, rfl, ?_⟩
  decide

/-- Claim C10 as amended: when the item-name resolution finds no truthy
nested name and the flat ItemName is absent (null), the published ItemName
is the four-character string "None", and the metadata lookup is performed
with that string — a miss yielding null price and type, never an error. -/
theorem c10_amended_none_stringified (excel : List (String × ProdEntry)) (p : Package)
    (h1 : pyTruthy (nestedName p) = false) (h2 : p.ItemName = none) :
    (mkRecord excel p).ItemName = "None" ∧
    (mkRecord excel p).typ = (lookupA excel "None").bind ProdEntry.typ ∧
    (mkRecord excel p).price = (lookupA excel "None").bind ProdEntry.price ∧
    (lookupA excel "None" = none →
      (mkRecord excel p).typ = none ∧ (mkRecord excel p).price = none) := by
  have hkey : itemNameKey p = "None" := by
    have hres : resolveItemName p = none := by
      simp [resolveItemName, h1, h2]
    rw [itemNameKey, hres]
    rfl
  refine ⟨?_, ?_, ?_, ?_⟩
  · simp [mkRecord, hkey]
  · simp [mkRecord, hkey]
  · simp [mkRecord, hkey]
  · intro h0
    simp [mkRecord, hkey, h0]

/-- Witness for the amended C10 at a concrete package with no item name. -/
theorem c10_witness :
    (mkRecord [] pkg10w).ItemName = "None" ∧
    (mkRecord [] pkg10w).typ = (lookupA [] "None").bind ProdEntry.typ ∧
    (mkRecord [] pkg10w).price = (lookupA [] "None").bind ProdEntry.price ∧
    (lookupA ([] : List (String × ProdEntry)) "None" = none →
      (mkRecord [] pkg10w).typ = none ∧ (mkRecord [] pkg10w).price = none) :=
  c10_amended_none_stringified [] pkg10w rfl rfl

/-- A one-row BulkRules sheet reduces to one step of the fold. -/
theorem bulkRulesOf_singleton (r : BRRow) : bulkRulesOf [r] = bulkStep [] r := by
  show (bulkStep [] r >>= fun b => pure b) = bulkStep [] r
  cases bulkStep [] r <;> rfl

/-- Counterexample to C4 as stated: a row with an unparsable Price is not
dropped — it is emitted with a null price — and a row with an unparsable
MinQty is not dropped silently — it aborts the run with an error. -/
theorem c4_counterexample :
    bulkRulesOf [rowPriceBad] = .ok [{ productGroup := "A", minQty := 2, price := none }] ∧
    bulkRulesOf [rowQtyBad] = .error () :=
  ⟨rfl, rfl⟩

/-- Claim C4 as amended: a bulk-rule row any of whose three fields is
missing or empty is skipped silently; a remaining row whose MinQty does
not parse as an integer aborts the entire run with an uncaught error; a
remaining row whose MinQty parses is emitted with its product group
stripped and its price parsed leniently (null when the price text does not
parse as a decimal — the rule is kept, not dropped). -/
theorem c4_amended_bulk_row (r : BRRow) :
    ((pyTruthy r.productGroup && pyTruthy r.minQty && pyTruthy r.price) = false →
      bulkRulesOf [r] = .ok []) ∧
    ((pyTruthy r.productGroup && pyTruthy r.minQty && pyTruthy r.price) = true →
      pyIntStr (r.minQty.getD "") = none → bulkRulesOf [r] = .error ()) ∧
    (∀ n : Int, (pyTruthy r.productGroup && pyTruthy r.minQty && pyTruthy r.price) = true →
      pyIntStr (r.minQty.getD "") = some n →
      bulkRulesOf [r] = .ok [{ productGroup := pyStrip (r.productGroup.getD "")
                               minQty := n
                               price := toMoney r.price }]) := by
  refine ⟨?_, ?_, ?_⟩
  · intro h
    rw [bulkRulesOf_singleton]
    simp [bulkStep, h]
  · intro h hn
    rw [bulkRulesOf_singleton]
    simp [bulkStep, h, hn]
  · intro n h hn
    rw [bulkRulesOf_singleton]
    simp [bulkStep, h, hn]

/-- Witness for the amended C4: a row with a missing group is skipped and
a fully parsable row is emitted. -/
theorem c4_witness :
    bulkRulesOf [rowSkip] = .ok [] ∧
    bulkRulesOf [rowGood] = .ok [{ productGroup := pyStrip (rowGood.productGroup.getD "")
                                   minQty := 3
                                   price := toMoney rowGood.price }] :=
  ⟨(c4_amended_bulk_row rowSkip).1 rfl,
   (c4_amended_bulk_row rowGood).2.2 3 rfl rfl⟩

/-- Claim C2: for every fetch cycle the packages map has no duplicate unit
ids; looking up an id finds exactly the record built from the last-seen
package with that id whose storage location, lowercased, is in the ROOMS
allow-set; consequently every record in the map originates from an
allow-listed package and a package with any other location never appears. -/
theorem c2_unique_ids_allowlist_last_seen (excel : List (String × ProdEntry))
    (pkgs : List Package) :
    (keysOf (buildPackagesMap excel pkgs)).Nodup ∧
    (∀ k, lookupA (buildPackagesMap excel pkgs) k =
      ((pkgs.filter allowedPkg).reverse.find? (fun p => decide (p.Id = k))).map
        (mkRecord excel)) ∧
    (∀ k r, lookupA (buildPackagesMap excel pkgs) k = some r →
      ∃ p, p ∈ pkgs ∧ allowedPkg p = true ∧ p.Id = k ∧ r = mkRecord excel p) := by
  have hchar : ∀ k, lookupA (buildPackagesMap excel pkgs) k =
      ((pkgs.filter allowedPkg).reverse.find? (fun p => decide (p.Id = k))).map
        (mkRecord excel) := by
    intro k
    have h := lookupA_foldl_upsert allowedPkg Package.Id (mkRecord excel) pkgs [] k
    cases hf : (pkgs.filter allowedPkg).reverse.find? (fun p => decide (p.Id = k)) with
    | none => rw [hf] at h; simpa [lookupA] using h
    | some p => rw [hf] at h; simpa using h
  refine ⟨?_, hchar, ?_⟩
  · exact nodup_keysOf_foldl_upsert allowedPkg Package.Id (mkRecord excel) pkgs []
      (by simp [keysOf])
  · intro k r hr
    rw [hchar k] at hr
    cases hf : (pkgs.filter allowedPkg).reverse.find? (fun p => decide (p.Id = k)) with
    | none => rw [hf] at hr; cases hr
    | some p =>
      rw [hf] at hr
      have hp : p ∈ (pkgs.filter allowedPkg).reverse := List.mem_of_find?_eq_some hf
      have hpk := List.find?_some hf
      have hmem : p ∈ pkgs.filter allowedPkg := List.mem_reverse.mp hp
      refine ⟨p, List.mem_of_mem_filter hmem, List.of_mem_filter hmem,
        of_decide_eq_true hpk, ?_⟩
      cases hr
      rfl

/-- Witness for C2 at a one-package fetch cycle: the allow-listed package
is looked up as its built record. -/
theorem c2_witness :
    allowedPkg pkgW7 = true ∧
    lookupA (buildPackagesMap [] [pkgW7]) 101 = some (mkRecord [] pkgW7) := by
  have h := (c2_unique_ids_allowlist_last_seen [] [pkgW7]).2.1 101
  exact ⟨rfl, by rw [h]; rfl⟩

/-- Claim C8: price text is normalized (strip whitespace, remove "$" and
",") and parsed as a decimal — "$45.00" parses to 45 — and the product map
holds, for every name, the entry of the last retained row with that name,
whose price is null exactly when the normalized text does not parse; a row
with an unparsable price is still retained in the map. -/
theorem c8_price_normalization :
    toMoney (some "$45.00") = some (45 : ℚ) ∧
    (∀ (rows : List ProdRow) (k : String),
      lookupA (buildProductMap rows) k =
        ((rows.filter retainedRow).reverse.find? (fun r => decide (rowName r = k))).map
          mkProdEntry) ∧
    (∀ r : ProdRow, retainedRow r = true → toMoney (some (r.price.getD "")) = none →
      (mkProdEntry r).price = none) ∧
    (∀ (rows : List ProdRow) (r : ProdRow), r ∈ rows → retainedRow r = true →
      rowName r ∈ keysOf (buildProductMap rows)) := by
  refine ⟨?_, ?_, ?_, ?_⟩
  · have hstep : toMoney (some "$45.00") = some ((45 : ℚ) + (0 : ℚ) / 10 ^ (2 : Nat)) := rfl
    rw [hstep]
    norm_num
  · intro rows k
    have h := lookupA_foldl_upsert retainedRow rowName mkProdEntry rows [] k
    cases hf : (rows.filter retainedRow).reverse.find? (fun r => decide (rowName r = k)) with
    | none => rw [hf] at h; simpa [lookupA] using h
    | some r => rw [hf] at h; simpa using h
  · intro r _ h
    simpa [mkProdEntry] using h
  · intro rows r hr hret
    exact key_mem_keysOf_foldl_upsert retainedRow rowName mkProdEntry rows [] r hr hret

/-- Witness for C8: a concrete retained row with unparsable price text is
kept with a null price. -/
theorem c8_witness :
    toMoney (some (prodRowW.price.getD "")) = none ∧
    (mkProdEntry prodRowW).price = none ∧
    rowName prodRowW ∈ keysOf (buildProductMap [prodRowW]) :=
  ⟨rfl, (c8_price_normalization).2.2.1 prodRowW rfl rfl,
   (c8_price_normalization).2.2.2 [prodRowW] prodRowW (List.mem_singleton.mpr rfl) rfl⟩

/-- Claim C9: when every inventory response reports the same total-page
count N ≥ 1 (with success statuses), the loop requests exactly the pages
1 through N in order, terminates, and aggregates the matching units of
every page into the packages map; when the first response omits the count
it is read as 1 and exactly one request is made. -/
theorem c9_pagination_requests (api : Nat → InvResponse) (excel : List (String × ProdEntry))
    (N fuel : Nat) :
    (1 ≤ N → (∀ p, (api p).TotalPages = some N) → (∀ p, (api p).status < 400) → N ≤ fuel →
      fetchLoop api excel fuel 1 [] =
        some (.done (List.range' 1 N)
          (buildPackagesMap excel ((List.range' 1 N).map (fun q => (api q).Data)).flatten))) ∧
    ((api 1).TotalPages = none → (api 1).status < 400 → 1 ≤ fuel →
      fetchLoop api excel fuel 1 [] = some (.done [1] (buildPackagesMap excel (api 1).Data))) := by
  constructor
  · intro hN hTP hst hfuel
    have h := fetchLoop_const_aux api excel N hTP hst (N - 1) 1 [] fuel (by omega) (by omega)
    rw [show N - 1 + 1 = N from by omega] at h
    exact h
  · intro hTP hst hfuel
    obtain ⟨fuel', rfl⟩ : ∃ f, fuel = f + 1 := ⟨fuel - 1, by omega⟩
    simp only [fetchLoop]
    rw [if_neg (by omega)]
    rw [show (api 1).TotalPages.getD 1 = 1 from by rw [hTP]; rfl]
    rw [if_pos (by omega)]
    rfl

/-- Witness for C9: three constant pages are requested as 1, 2, 3, and an
absent total-page count yields a single request. -/
theorem c9_witness :
    fetchLoop api3 [] 3 1 [] =
      some (.done (List.range' 1 3)
        (buildPackagesMap [] ((List.range' 1 3).map (fun q => (api3 q).Data)).flatten)) ∧
    fetchLoop apiN1 [] 1 1 [] = some (.done [1] (buildPackagesMap [] (apiN1 1).Data)) :=
  ⟨(c9_pagination_requests api3 [] 3 3).1 (by decide) (fun _ => rfl)
      (fun _ => show (200 : Nat) < 400 by decide) (by decide),
   (c9_pagination_requests apiN1 [] 0 1).2 rfl (show (200 : Nat) < 400 by decide) (by decide)⟩

/-- Claim C1: a second run over identical upstream data serializes the
byte-identical payload; its content hash equals the hash of the previously
published artifact, so the change gate takes the no-change path — zero
pull/write/commit/push operations — and the run exits with code 0. -/
theorem c1_second_run_is_noop (u : Upstream) (fuel : Nat) (s : String)
    (h : pipelineJson fuel u = some s) :
    pipelineJson fuel u = some s ∧
    fileHashO (some s) = some (hashStr s) ∧
    changeDecision (some s) s = RunEnd.noChange ∧
    gitOpsOf (changeDecision (some s) s) = [] ∧
    exitCodeOf (changeDecision (some s) s) true = 0 ∧
    exitCodeOf (changeDecision (some s) s) false = 0 := by
  have hcd : changeDecision (some s) s = RunEnd.noChange := by
    simp [changeDecision, fileHashO]
  exact ⟨h, rfl, hcd, by rw [hcd]; rfl, by rw [hcd]; rfl, by rw [hcd]; rfl⟩

/-- Witness for C1 at a concrete upstream whose run publishes the empty
catalog. -/
theorem c1_witness :
    pipelineJson 1 u0 = some menuJson0 ∧
    fileHashO (some menuJson0) = some (hashStr menuJson0) ∧
    changeDecision (some menuJson0) menuJson0 = RunEnd.noChange ∧
    gitOpsOf (changeDecision (some menuJson0) menuJson0) = [] ∧
    exitCodeOf (changeDecision (some menuJson0) menuJson0) true = 0 ∧
    exitCodeOf (changeDecision (some menuJson0) menuJson0) false = 0 :=
  c1_second_run_is_noop u0 1 menuJson0 rfl
